import Mathlib

/-!
Verification of the project/task scheduling core of the repository
(`src/core/project_manager.py`), via a shallow embedding.

Modelling conventions:
* Python `datetime` values become `Nat` timestamps (seconds); every operation
  that calls `datetime.now()` in the source takes an explicit `now : Nat`.
* Python `float` hours become `ℚ` (exact arithmetic over the rationals).
* Python `dict` (insertion-ordered, unique keys) becomes an association list
  `List (String × α)`; `dictGet` is `d[k]` / `d.get(k)`, `dictSet` is
  `d[k] = v` (replace-in-place on an existing key, append on a fresh key),
  `dictValues` is `d.values()` in insertion order.
* `uuid.uuid4()` id generation becomes an explicit id argument; the
  reachable-state relation `Reachable` carries freshness hypotheses that
  model uuid uniqueness.
* `raise ValueError(...)` (all of which are "not found" errors in this file)
  becomes `Except.error (Err.notFound msg)`; mutators return
  `Except Err ProjectManager`, so a raising run produces no successor state,
  exactly as the source raises before any mutation.
-/

/-- `TaskStatus` enum of the source. -/
inductive TaskStatus where
  | notStarted
  | inProgress
  | blocked
  | completed
  | cancelled
deriving DecidableEq, Repr

/-- `ProjectStatus` enum of the source. -/
inductive ProjectStatus where
  | planning
  | active
  | onHold
  | completed
  | cancelled
deriving DecidableEq, Repr

/-- `Priority` enum of the source. -/
inductive Priority where
  | low
  | medium
  | high
  | critical
deriving DecidableEq, Repr

/-- `ProjectTask` dataclass of the source. -/
structure ProjectTask where
  id : String
  title : String
  description : String
  status : TaskStatus
  priority : Priority
  assigned_agents : List String
  dependencies : List String
  estimated_hours : ℚ
  actual_hours : ℚ := 0
  start_date : Option Nat := none
  due_date : Option Nat := none
  completion_date : Option Nat := none
  tags : List String := []
  notes : String := ""
  created_at : Nat
  updated_at : Nat
deriving DecidableEq, Repr

/-- `Project` dataclass of the source. -/
structure Project where
  id : String
  name : String
  description : String
  status : ProjectStatus
  priority : Priority
  owner : String
  tasks : List (String × ProjectTask) := []
  start_date : Option Nat := none
  due_date : Option Nat := none
  completion_date : Option Nat := none
  budget_hours : ℚ := 0
  spent_hours : ℚ := 0
  tags : List String := []
  created_at : Nat
  updated_at : Nat
deriving DecidableEq, Repr

/-- `ResourceAllocation` dataclass of the source. -/
structure ResourceAllocation where
  agent_id : String
  project_id : String
  task_id : String
  allocated_hours : ℚ
  start_date : Nat
  end_date : Nat
  utilization_percentage : ℚ := 0
deriving DecidableEq, Repr

/-- `ProjectMetrics` dataclass of the source. -/
structure ProjectMetrics where
  project_id : String
  completion_percentage : ℚ
  tasks_completed : Nat
  tasks_total : Nat
  hours_spent : ℚ
  hours_estimated : ℚ
  days_remaining : Int
  is_on_schedule : Bool
  blocked_tasks : Nat
  overdue_tasks : Nat
deriving DecidableEq, Repr

/-- State of a `ProjectManager` instance (`__init__`). -/
structure ProjectManager where
  projects : List (String × Project) := []
  resource_allocations : List ResourceAllocation := []
deriving DecidableEq, Repr

/-- Error kind for the `ValueError("... not found ...")` raises of the source. -/
inductive Err where
  | notFound (msg : String)
deriving DecidableEq, Repr

/-- Python `d.get(k)` / `d[k]` on an insertion-ordered dict. -/
def dictGet {α : Type} (d : List (String × α)) (k : String) : Option α :=
  match d with
  | [] => none
  | (k', v) :: rest => if k' = k then some v else dictGet rest k

/-- Python `d[k] = v`: replace the entry in place when the key exists,
append at the end when it is fresh. -/
def dictSet {α : Type} (d : List (String × α)) (k : String) (v : α) :
    List (String × α) :=
  match d with
  | [] => [(k, v)]
  | (k', v') :: rest =>
      if k' = k then (k, v) :: rest else (k', v') :: dictSet rest k v

/-- Python `d.values()` in insertion order. -/
def dictValues {α : Type} (d : List (String × α)) : List α :=
  d.map Prod.snd

/-- `self.projects[project_id] = project` on the manager state. -/
def set_project (mgr : ProjectManager) (project_id : String) (p : Project) :
    ProjectManager :=
  { mgr with projects := dictSet mgr.projects project_id p }

/-- `ProjectManager.create_project`. The source generates `project_id` with
`uuid.uuid4()` and returns it; here the fresh id is an explicit argument and
the new manager state is returned. The created project has status PLANNING,
no tasks, and `spent_hours = 0`. -/
def create_project (mgr : ProjectManager) (project_id : String)
    (name description owner : String) (priority : Priority)
    (start_date due_date : Option Nat) (budget_hours : ℚ) (now : Nat) :
    ProjectManager :=
  let project : Project :=
    { id := project_id
      name := name
      description := description
      status := ProjectStatus.planning
      priority := priority
      owner := owner
      start_date := start_date
      due_date := due_date
      budget_hours := budget_hours
      created_at := now
      updated_at := now }
  set_project mgr project_id project

/-- The `ProjectTask(...)` literal built by `add_task_to_project`: status
NOT_STARTED, `actual_hours = 0`, no completion date. -/
def new_task (task_id title description : String) (priority : Priority)
    (estimated_hours : ℚ) (dependencies assigned_agents : List String)
    (due_date : Option Nat) (tags : List String) (now : Nat) : ProjectTask :=
  { id := task_id
    title := title
    description := description
    status := TaskStatus.notStarted
    priority := priority
    assigned_agents := assigned_agents
    dependencies := dependencies
    estimated_hours := estimated_hours
    due_date := due_date
    tags := tags
    created_at := now
    updated_at := now }

/-- The project mutation performed by `add_task_to_project` once the project
exists: insert the new task and refresh the project's `updated_at`. -/
def add_task_body (project : Project) (task_id title description : String)
    (priority : Priority) (estimated_hours : ℚ)
    (dependencies assigned_agents : List String) (due_date : Option Nat)
    (tags : List String) (now : Nat) : Project :=
  { project with
    tasks := dictSet project.tasks task_id
      (new_task task_id title description priority estimated_hours
        dependencies assigned_agents due_date tags now)
    updated_at := now }

/-- `ProjectManager.add_task_to_project`. The source generates `task_id` with
`uuid.uuid4()`; here it is an explicit argument. The `dependencies or []`,
`assigned_agents or []`, `tags or []` defaulting of the source is subsumed by
taking the lists directly. -/
def add_task_to_project (mgr : ProjectManager) (project_id task_id : String)
    (title description : String) (priority : Priority) (estimated_hours : ℚ)
    (dependencies assigned_agents : List String) (due_date : Option Nat)
    (tags : List String) (now : Nat) : Except Err ProjectManager :=
  match dictGet mgr.projects project_id with
  | none => Except.error (Err.notFound ("Project " ++ project_id ++ " not found"))
  | some project =>
    let project' := add_task_body project task_id title description priority
      estimated_hours dependencies assigned_agents due_date tags now
    Except.ok (set_project mgr project_id project')

/-- `ProjectManager._all_tasks_completed`, on the project value it reads:
`False` for an empty task dict, otherwise every task's status is COMPLETED. -/
def all_tasks_completed (project : Project) : Bool :=
  if project.tasks.isEmpty then false
  else (dictValues project.tasks).all fun t => t.status = TaskStatus.completed

/-- The task mutation performed by `update_task_status`: set the status and
`updated_at`, and stamp `completion_date := now` exactly when the new status
is COMPLETED and the old status was not. -/
def updated_task (task : ProjectTask) (status : TaskStatus) (now : Nat) :
    ProjectTask :=
  let task1 := { task with status := status, updated_at := now }
  if status = TaskStatus.completed ∧ task.status ≠ TaskStatus.completed
  then { task1 with completion_date := some now }
  else task1

/-- The project mutation performed by `update_task_status` once both ids
exist: store the updated task, then, if every task of the already-updated
project is COMPLETED, cascade COMPLETED status and `completion_date := now`
onto the project. -/
def apply_status_update (project : Project) (task_id : String)
    (task : ProjectTask) (status : TaskStatus) (now : Nat) : Project :=
  let projectA := { project with
    tasks := dictSet project.tasks task_id (updated_task task status now) }
  if all_tasks_completed projectA
  then { projectA with
    status := ProjectStatus.completed
    completion_date := some now }
  else projectA

/-- `ProjectManager.update_task_status`: existence checks, then the task and
project mutations of `apply_status_update`. -/
def update_task_status (mgr : ProjectManager) (project_id task_id : String)
    (status : TaskStatus) (now : Nat) : Except Err ProjectManager :=
  match dictGet mgr.projects project_id with
  | none => Except.error (Err.notFound ("Project " ++ project_id ++ " not found"))
  | some project =>
    match dictGet project.tasks task_id with
    | none => Except.error (Err.notFound
        ("Task " ++ task_id ++ " not found in project " ++ project_id))
    | some task =>
      let project' := apply_status_update project task_id task status now
      Except.ok (set_project mgr project_id project')

/-- The task mutation performed by `log_time`: add `hours` to `actual_hours`
and refresh `updated_at`. The source performs no sign check on `hours`. -/
def time_logged_task (task : ProjectTask) (hours : ℚ) (now : Nat) :
    ProjectTask :=
  { task with actual_hours := task.actual_hours + hours, updated_at := now }

/-- The project mutation performed by `log_time` once both ids exist: store
the task with the added hours, add `hours` to the project's `spent_hours`,
and refresh the project's `updated_at`. -/
def log_time_body (project : Project) (task_id : String) (task : ProjectTask)
    (hours : ℚ) (now : Nat) : Project :=
  { project with
    tasks := dictSet project.tasks task_id (time_logged_task task hours now)
    spent_hours := project.spent_hours + hours
    updated_at := now }

/-- `ProjectManager.log_time`: existence checks, then unconditionally add
`hours` to the task's `actual_hours` and the project's `spent_hours`
(the source validates nothing about `hours`). -/
def log_time (mgr : ProjectManager) (project_id task_id : String)
    (hours : ℚ) (now : Nat) : Except Err ProjectManager :=
  match dictGet mgr.projects project_id with
  | none => Except.error (Err.notFound ("Project " ++ project_id ++ " not found"))
  | some project =>
    match dictGet project.tasks task_id with
    | none => Except.error (Err.notFound
        ("Task " ++ task_id ++ " not found in project " ++ project_id))
    | some task =>
      let project' := log_time_body project task_id task hours now
      Except.ok (set_project mgr project_id project')

/-- `ProjectManager.get_task_dependencies`: the task's dependency ids that
exist in the project, resolved to their tasks; dangling ids are dropped. -/
def get_task_dependencies (mgr : ProjectManager) (project_id task_id : String) :
    Except Err (List ProjectTask) :=
  match dictGet mgr.projects project_id with
  | none => Except.error (Err.notFound ("Project " ++ project_id ++ " not found"))
  | some project =>
    match dictGet project.tasks task_id with
    | none => Except.error (Err.notFound ("Task " ++ task_id ++ " not found"))
    | some task =>
      Except.ok (task.dependencies.filterMap fun dep_id =>
        dictGet project.tasks dep_id)

/-- The dependency test of `get_available_tasks`: the generator
`all(project.tasks.get(d).status == COMPLETED for d in deps if d in project.tasks)`
checks only the dependency ids present in the project dict. -/
def avail_filter (project : Project) (task : ProjectTask) : Bool :=
  decide (task.status = TaskStatus.notStarted) &&
    (task.dependencies.filter fun dep_id =>
        (dictGet project.tasks dep_id).isSome).all
      (fun dep_id =>
        match dictGet project.tasks dep_id with
        | some dep => decide (dep.status = TaskStatus.completed)
        | none => false)

/-- `ProjectManager.get_available_tasks`: the NOT_STARTED tasks whose every
dependency id present in the project refers to a COMPLETED task (absent ids
are skipped by the generator's `if` filter, hence count as satisfied). -/
def get_available_tasks (mgr : ProjectManager) (project_id : String) :
    Except Err (List ProjectTask) :=
  match dictGet mgr.projects project_id with
  | none => Except.error (Err.notFound ("Project " ++ project_id ++ " not found"))
  | some project =>
    Except.ok ((dictValues project.tasks).filter (avail_filter project))

/-- `sum(t.estimated_hours for t in chain)`. -/
def chain_hours (chain : List ProjectTask) : ℚ :=
  (chain.map ProjectTask.estimated_hours).sum

/-- `ProjectManager._get_task_chain`. The Python recursion terminates because
the per-path `visited` set grows with a distinct task key at every level, so
its depth is bounded by the number of entries of `tasks`; the `fuel` argument
makes that bound explicit, and every caller passes `tasks.length + 1`, which
the depth never exhausts, so the fueled function agrees with the source. -/
def get_task_chain (tasks : List (String × ProjectTask)) :
    Nat → String → List String → List ProjectTask
  | 0, _, _ => []
  | fuel + 1, task_id, visited =>
    if visited.contains task_id then []
    else
      match dictGet tasks task_id with
      | none => []
      | some task =>
        let visited' := task_id :: visited
        let dependent_tasks := (dictValues tasks).filter fun t =>
          t.dependencies.contains task_id
        let best := dependent_tasks.foldl
          (fun acc dep_task =>
            let dep_chain := get_task_chain tasks fuel dep_task.id visited'
            let dep_duration := chain_hours dep_chain
            if acc.2 < dep_duration then (dep_chain, dep_duration) else acc)
          (([] : List ProjectTask), (0 : ℚ))
        task :: best.1

/-- `ProjectManager.get_critical_path`: among the forward-dependent chains of
the dependency-free start tasks, keep the chain whose total estimated hours is
strictly greater than the running maximum, which starts at `([], 0)`. -/
def get_critical_path (mgr : ProjectManager) (project_id : String) :
    Except Err (List ProjectTask) :=
  match dictGet mgr.projects project_id with
  | none => Except.error (Err.notFound ("Project " ++ project_id ++ " not found"))
  | some project =>
    let tasks := dictValues project.tasks
    let start_tasks := tasks.filter fun t => t.dependencies.isEmpty
    if start_tasks.isEmpty then Except.ok []
    else
      let best := start_tasks.foldl
        (fun acc start_task =>
          let chain := get_task_chain project.tasks (project.tasks.length + 1)
            start_task.id []
          let chain_duration := chain_hours chain
          if acc.2 < chain_duration then (chain, chain_duration) else acc)
        (([] : List ProjectTask), (0 : ℚ))
      Except.ok best.1

/-- The list of candidate chains `get_critical_path` folds over: one chain per
dependency-free start task, in task-insertion order. -/
def start_chains (project : Project) : List (List ProjectTask) :=
  ((dictValues project.tasks).filter fun t => t.dependencies.isEmpty).map
    fun start_task =>
      get_task_chain project.tasks (project.tasks.length + 1) start_task.id []

/-- `ProjectManager._calculate_expected_progress` (durations in seconds). -/
def calculate_expected_progress (project : Project) (now : Nat) : ℚ :=
  match project.start_date, project.due_date with
  | some sd, some dd =>
    let total_duration : ℚ := ((dd : ℤ) - (sd : ℤ) : ℤ)
    let elapsed_duration : ℚ := ((now : ℤ) - (sd : ℤ) : ℤ)
    if total_duration ≤ 0 then 100
    else max 0 (min 100 (elapsed_duration / total_duration * 100))
  | _, _ => 0

/-- `ProjectManager.get_project_metrics`. `timedelta.days` is floor division
of the signed second difference by 86400 (`Int.fdiv`). -/
def get_project_metrics (mgr : ProjectManager) (project_id : String)
    (now : Nat) : Except Err ProjectMetrics :=
  match dictGet mgr.projects project_id with
  | none => Except.error (Err.notFound ("Project " ++ project_id ++ " not found"))
  | some project =>
    let tasks := dictValues project.tasks
    if tasks.isEmpty then
      Except.ok
        { project_id := project_id
          completion_percentage := 0
          tasks_completed := 0
          tasks_total := 0
          hours_spent := project.spent_hours
          hours_estimated := project.budget_hours
          days_remaining := 0
          is_on_schedule := true
          blocked_tasks := 0
          overdue_tasks := 0 }
    else
      let tasks_completed :=
        (tasks.filter fun t => t.status = TaskStatus.completed).length
      let tasks_total := tasks.length
      let completion_percentage : ℚ :=
        if 0 < tasks_total then (tasks_completed : ℚ) / (tasks_total : ℚ) * 100
        else 0
      let blocked_tasks :=
        (tasks.filter fun t => t.status = TaskStatus.blocked).length
      let overdue_tasks :=
        (tasks.filter fun t =>
          match t.due_date with
          | some dd => decide (dd < now) && decide (t.status ≠ TaskStatus.completed)
          | none => false).length
      let days_remaining : Int :=
        match project.due_date with
        | some dd => max 0 (Int.fdiv ((dd : ℤ) - (now : ℤ)) 86400)
        | none => 0
      let is_on_schedule : Bool :=
        match project.due_date with
        | some _ =>
          if completion_percentage < 100 then
            decide (calculate_expected_progress project now * (9 / 10) ≤
              completion_percentage)
          else true
        | none => true
      Except.ok
        { project_id := project_id
          completion_percentage := completion_percentage
          tasks_completed := tasks_completed
          tasks_total := tasks_total
          hours_spent := project.spent_hours
          hours_estimated := project.budget_hours
          days_remaining := days_remaining
          is_on_schedule := is_on_schedule
          blocked_tasks := blocked_tasks
          overdue_tasks := overdue_tasks }

/-- The states reachable from a fresh `ProjectManager()` through the public
mutators. The `uuid.uuid4()` calls of the source are modelled by freshness
hypotheses on the chosen ids. -/
inductive Reachable : ProjectManager → Prop where
  | init : Reachable {}
  | create {mgr} (project_id name description owner : String)
      (priority : Priority) (start_date due_date : Option Nat)
      (budget_hours : ℚ) (now : Nat) :
      Reachable mgr →
      dictGet mgr.projects project_id = none →
      Reachable (create_project mgr project_id name description owner priority
        start_date due_date budget_hours now)
  | addTask {mgr mgr'} (project_id task_id title description : String)
      (priority : Priority) (estimated_hours : ℚ)
      (dependencies assigned_agents : List String) (due_date : Option Nat)
      (tags : List String) (now : Nat) :
      Reachable mgr →
      (∀ pr ∈ mgr.projects, dictGet pr.2.tasks task_id = none) →
      add_task_to_project mgr project_id task_id title description priority
        estimated_hours dependencies assigned_agents due_date tags now =
        Except.ok mgr' →
      Reachable mgr'
  | updateStatus {mgr mgr'} (project_id task_id : String) (status : TaskStatus)
      (now : Nat) :
      Reachable mgr →
      update_task_status mgr project_id task_id status now = Except.ok mgr' →
      Reachable mgr'
  | logTime {mgr mgr'} (project_id task_id : String) (hours : ℚ) (now : Nat) :
      Reachable mgr →
      log_time mgr project_id task_id hours now = Except.ok mgr' →
      Reachable mgr'

/-- The task stored under `task_id` of the project stored under `project_id`. -/
def task_in (mgr : ProjectManager) (project_id task_id : String) :
    Option ProjectTask :=
  (dictGet mgr.projects project_id).bind fun p => dictGet p.tasks task_id

/-- The longest-so-far accumulation pattern shared by `get_critical_path` and
`_get_task_chain`: keep a candidate only when its weight strictly exceeds the
running maximum. -/
def fold_best {α : Type} (g : α → ℚ) (xs : List α) (b : α × ℚ) : α × ℚ :=
  xs.foldl (fun acc x => if acc.2 < g x then (x, g x) else acc) b

/-- Unwrap an `Except.ok` state, with a default for the error case; used only
to name concrete successor states in closed statements. -/
def okOr (e : Except Err ProjectManager) (d : ProjectManager) : ProjectManager :=
  match e with
  | Except.ok s => s
  | Except.error _ => d

/-- Sum of `actual_hours` over the tasks of a project's task dict. -/
def sum_actual (tasks : List (String × ProjectTask)) : ℚ :=
  ((dictValues tasks).map ProjectTask.actual_hours).sum

/-- Iterate `update_task_status(project_id, task_id, COMPLETED)` once per
entry of `nows`, threading the state; stops at the first error. -/
def repeat_complete (project_id task_id : String) :
    ProjectManager → List Nat → Except Err ProjectManager
  | mgr, [] => Except.ok mgr
  | mgr, now :: rest =>
    match update_task_status mgr project_id task_id TaskStatus.completed now with
    | Except.ok mgr' => repeat_complete project_id task_id mgr' rest
    | Except.error e => Except.error e

/-- The project stored under `project_id`, with a dummy default; used only to
name concrete components in closed statements. -/
def proj_of (mgr : ProjectManager) (project_id : String) : Project :=
  (dictGet mgr.projects project_id).getD
    { id := "", name := "", description := "", status := ProjectStatus.planning
      priority := Priority.medium, owner := "", created_at := 0, updated_at := 0 }

/-- The task stored under `task_id` of the project stored under `project_id`,
with a dummy default; used only in closed statements. -/
def task_of (mgr : ProjectManager) (project_id task_id : String) : ProjectTask :=
  (task_in mgr project_id task_id).getD
    { id := "", title := "", description := "", status := TaskStatus.notStarted
      priority := Priority.medium, assigned_agents := [], dependencies := []
      estimated_hours := 0, created_at := 0, updated_at := 0 }

/-! Concrete states used by witnesses and counterexamples. `mgr0 → mgrP →
mgrPT → ...` replays a run of the public operations; the literal managers
below are directly-written project states. -/

def mgr0 : ProjectManager := {}

def mgrP : ProjectManager :=
  create_project mgr0 "p" "proj" "demo project" "owner" Priority.medium
    none none 0 0

def mgrPT : ProjectManager :=
  okOr (add_task_to_project mgrP "p" "t" "task one" "demo task" Priority.medium
    1 [] [] none [] 1) mgrP

def mgrLog : ProjectManager := okOr (log_time mgrPT "p" "t" 2 3) mgrPT

def mgrNeg : ProjectManager := okOr (log_time mgrPT "p" "t" (-1) 7) mgrPT

def mgrDone : ProjectManager :=
  okOr (update_task_status mgrPT "p" "t" TaskStatus.completed 5) mgrPT

def mgrDown : ProjectManager :=
  okOr (update_task_status mgrDone "p" "t" TaskStatus.inProgress 6) mgrDone

/-- A bare demo task: priority MEDIUM, no agents, no dates, no tags. -/
def mk_demo_task (id : String) (deps : List String) (est : ℚ)
    (st : TaskStatus) : ProjectTask :=
  { id := id, title := id, description := "", status := st
    priority := Priority.medium, assigned_agents := [], dependencies := deps
    estimated_hours := est, created_at := 0, updated_at := 0 }

/-- A bare demo project named `demo` with the given task dict. -/
def mk_demo_project (tasks : List (String × ProjectTask)) : Project :=
  { id := "p", name := "demo", description := "", status := ProjectStatus.active
    priority := Priority.medium, owner := "o", tasks := tasks
    created_at := 0, updated_at := 0 }

def taskA : ProjectTask := mk_demo_task "A" [] 2 TaskStatus.notStarted

def taskB : ProjectTask := mk_demo_task "B" ["A"] 3 TaskStatus.notStarted

def taskC : ProjectTask := mk_demo_task "C" ["A"] 5 TaskStatus.notStarted

/-- The §8 critical-path example: A(2h, no deps), B(3h, dep A), C(5h, dep A). -/
def projABC : Project :=
  mk_demo_project [("A", taskA), ("B", taskB), ("C", taskC)]

def mgrABC : ProjectManager := { projects := [("p", projABC)] }

def taskZ : ProjectTask := mk_demo_task "Z" [] 0 TaskStatus.notStarted

/-- A project whose only task is dependency-free with `estimated_hours = 0`. -/
def projZ : Project := mk_demo_project [("Z", taskZ)]

def mgrZ : ProjectManager := { projects := [("p", projZ)] }

def taskD : ProjectTask := mk_demo_task "d" [] 1 TaskStatus.completed

/-- A NOT_STARTED task whose dependency set holds one COMPLETED real task and
one never-created id. -/
def taskW : ProjectTask := mk_demo_task "w" ["d", "ghost"] 1 TaskStatus.notStarted

def mgrDang : ProjectManager :=
  { projects := [("p", mk_demo_project [("d", taskD), ("w", taskW)])] }

def taskOneDone : ProjectTask := mk_demo_task "t1" [] 1 TaskStatus.completed

def taskTwoCanc : ProjectTask := mk_demo_task "t2" [] 1 TaskStatus.cancelled

/-- A project holding one COMPLETED and one CANCELLED task. -/
def mgrCanc : ProjectManager :=
  { projects := [("p", mk_demo_project [("t1", taskOneDone), ("t2", taskTwoCanc)])] }

def mgrCancDone : ProjectManager :=
  okOr (update_task_status mgrCanc "p" "t2" TaskStatus.completed 9) mgrCanc

def mgrCancUpd : ProjectManager :=
  okOr (update_task_status mgrCanc "p" "t1" TaskStatus.inProgress 4) mgrCanc

/-- A project created with an empty name (and empty description/owner). -/
def mgrEN : ProjectManager :=
  create_project mgr0 "p" "" "" "" Priority.medium none none 0 0

/-- A task with an empty title added to the empty-named project. -/
def mgrENT : ProjectManager :=
  okOr (add_task_to_project mgrEN "p" "t" "" "" Priority.medium 1 [] [] none []
    0) mgrEN

/-! Lemmas about the dict embedding. -/

theorem dictGet_dictSet_same {α : Type} (d : List (String × α)) (k : String)
    (v : α) : dictGet (dictSet d k v) k = some v := by
  induction d with
  | nil => simp [dictGet, dictSet]
  | cons hd tl ih =>
    obtain ⟨k', v'⟩ := hd
    by_cases h : k' = k
    · subst h
      simp [dictGet, dictSet]
    · simp [dictGet, dictSet, h, ih]

theorem dictGet_dictSet_ne {α : Type} (d : List (String × α)) {k q : String}
    (v : α) (h : q ≠ k) : dictGet (dictSet d k v) q = dictGet d q := by
  have hkq : k ≠ q := fun e => h e.symm
  induction d with
  | nil => simp [dictGet, dictSet, hkq]
  | cons hd tl ih =>
    obtain ⟨k', v'⟩ := hd
    by_cases hk : k' = k
    · subst hk
      simp [dictGet, dictSet, hkq]
    · by_cases hq : k' = q
      · simp [dictGet, dictSet, hk, hq, h]
      · simp [dictGet, dictSet, hk, hq, ih]

theorem dictGet_mem {α : Type} {d : List (String × α)} {k : String} {v : α}
    (h : dictGet d k = some v) : (k, v) ∈ d := by
  induction d with
  | nil => simp [dictGet] at h
  | cons hd tl ih =>
    obtain ⟨k', v'⟩ := hd
    by_cases hk : k' = k
    · subst hk
      simp [dictGet] at h
      subst h
      exact List.mem_cons_self _ _
    · simp [dictGet, hk] at h
      exact List.mem_cons_of_mem _ (ih h)

theorem mem_dictValues {α : Type} {d : List (String × α)} {k : String} {v : α}
    (h : dictGet d k = some v) : v ∈ dictValues d := by
  simpa [dictValues] using List.mem_map_of_mem Prod.snd (dictGet_mem h)

theorem dictValues_dictSet_cases {α : Type} (d : List (String × α))
    (k : String) (v : α) :
    ∀ x ∈ dictValues (dictSet d k v), x = v ∨ x ∈ dictValues d := by
  induction d with
  | nil => simp [dictValues, dictSet]
  | cons hd tl ih =>
    obtain ⟨k', v'⟩ := hd
    by_cases hk : k' = k
    · have e1 : dictSet ((k', v') :: tl) k v = (k, v) :: tl := by
        simp [dictSet, hk]
      intro x hx
      rw [e1] at hx
      simp only [dictValues, List.map_cons, List.mem_cons] at hx ⊢
      rcases hx with hx | hx
      · exact Or.inl hx
      · exact Or.inr (Or.inr hx)
    · have e1 : dictSet ((k', v') :: tl) k v = (k', v') :: dictSet tl k v := by
        simp [dictSet, hk]
      intro x hx
      rw [e1] at hx
      simp only [dictValues, List.map_cons, List.mem_cons] at hx ⊢
      rcases hx with hx | hx
      · exact Or.inr (Or.inl hx)
      · rcases ih x (by simpa [dictValues] using hx) with hx' | hx'
        · exact Or.inl hx'
        · exact Or.inr (Or.inr (by simpa [dictValues] using hx'))

theorem dictSet_ne_nil {α : Type} (d : List (String × α)) (k : String) (v : α) :
    dictSet d k v ≠ [] := by
  cases d with
  | nil => simp [dictSet]
  | cons hd tl =>
    obtain ⟨k', v'⟩ := hd
    by_cases hk : k' = k <;> simp [dictSet, hk]

theorem sum_map_dictSet_none {α : Type} (f : α → ℚ) {d : List (String × α)}
    {k : String} (v : α) (h : dictGet d k = none) :
    ((dictValues (dictSet d k v)).map f).sum = ((dictValues d).map f).sum + f v := by
  induction d with
  | nil => simp [dictValues, dictSet]
  | cons hd tl ih =>
    obtain ⟨k', v'⟩ := hd
    by_cases hk : k' = k
    · subst hk
      simp [dictGet] at h
    · have h' : dictGet tl k = none := by simpa [dictGet, hk] using h
      have e1 : dictSet ((k', v') :: tl) k v = (k', v') :: dictSet tl k v := by
        simp [dictSet, hk]
      rw [e1]
      have e2 := ih h'
      simp only [dictValues, List.map_cons, List.sum_cons] at e2 ⊢
      rw [e2]
      ring

theorem sum_map_dictSet_some {α : Type} (f : α → ℚ) {d : List (String × α)}
    {k : String} {old : α} (v : α) (h : dictGet d k = some old) :
    ((dictValues (dictSet d k v)).map f).sum =
      ((dictValues d).map f).sum + f v - f old := by
  induction d with
  | nil => simp [dictGet] at h
  | cons hd tl ih =>
    obtain ⟨k', v'⟩ := hd
    by_cases hk : k' = k
    · have hv : v' = old := by simpa [dictGet, hk] using h
      subst hv
      have e1 : dictSet ((k', v') :: tl) k v = (k, v) :: tl := by
        simp [dictSet, hk]
      rw [e1]
      simp only [dictValues, List.map_cons, List.sum_cons]
      ring
    · have h' : dictGet tl k = some old := by simpa [dictGet, hk] using h
      have e1 : dictSet ((k', v') :: tl) k v = (k', v') :: dictSet tl k v := by
        simp [dictSet, hk]
      rw [e1]
      have e2 := ih h'
      simp only [dictValues, List.map_cons, List.sum_cons] at e2 ⊢
      rw [e2]
      ring

/-! Shape lemmas about the operations. -/

theorem create_project_projects (mgr : ProjectManager) (pid name desc owner : String)
    (prio : Priority) (sd dd : Option Nat) (bh : ℚ) (now : Nat) :
    (create_project mgr pid name desc owner prio sd dd bh now).projects =
      dictSet mgr.projects pid
        { id := pid, name := name, description := desc
          status := ProjectStatus.planning, priority := prio, owner := owner
          start_date := sd, due_date := dd, budget_hours := bh
          created_at := now, updated_at := now } := rfl

theorem add_task_found {mgr : ProjectManager} {pid : String} {project : Project}
    (tid title desc : String) (prio : Priority) (est : ℚ)
    (deps ags : List String) (dd : Option Nat) (tags : List String) (now : Nat)
    (hp : dictGet mgr.projects pid = some project) :
    add_task_to_project mgr pid tid title desc prio est deps ags dd tags now =
      Except.ok (set_project mgr pid
        (add_task_body project tid title desc prio est deps ags dd tags now)) := by
  unfold add_task_to_project
  simp only [hp]

theorem add_task_ok_elim {mgr mgr' : ProjectManager}
    {pid tid title desc : String} {prio : Priority} {est : ℚ}
    {deps ags : List String} {dd : Option Nat} {tags : List String} {now : Nat}
    (h : add_task_to_project mgr pid tid title desc prio est deps ags dd tags
      now = Except.ok mgr') :
    ∃ project, dictGet mgr.projects pid = some project ∧
      mgr' = set_project mgr pid
        (add_task_body project tid title desc prio est deps ags dd tags now) := by
  cases hp : dictGet mgr.projects pid with
  | none =>
    unfold add_task_to_project at h
    simp only [hp] at h
    exact Except.noConfusion h
  | some project =>
    rw [add_task_found tid title desc prio est deps ags dd tags now hp] at h
    exact ⟨project, rfl, (Except.ok.injEq _ _ ▸ h).symm⟩

theorem update_found {mgr : ProjectManager} {pid : String} {project : Project}
    {tid : String} {task : ProjectTask} (st : TaskStatus) (now : Nat)
    (hp : dictGet mgr.projects pid = some project)
    (ht : dictGet project.tasks tid = some task) :
    update_task_status mgr pid tid st now =
      Except.ok (set_project mgr pid
        (apply_status_update project tid task st now)) := by
  unfold update_task_status
  simp only [hp, ht]

theorem update_ok_elim {mgr mgr' : ProjectManager} {pid tid : String}
    {st : TaskStatus} {now : Nat}
    (h : update_task_status mgr pid tid st now = Except.ok mgr') :
    ∃ project task, dictGet mgr.projects pid = some project ∧
      dictGet project.tasks tid = some task ∧
      mgr' = set_project mgr pid
        (apply_status_update project tid task st now) := by
  cases hp : dictGet mgr.projects pid with
  | none =>
    unfold update_task_status at h
    simp only [hp] at h
    exact Except.noConfusion h
  | some project =>
    cases ht : dictGet project.tasks tid with
    | none =>
      unfold update_task_status at h
      simp only [hp, ht] at h
      exact Except.noConfusion h
    | some task =>
      rw [update_found st now hp ht] at h
      exact ⟨project, task, rfl, ht, (Except.ok.injEq _ _ ▸ h).symm⟩

theorem log_time_found {mgr : ProjectManager} {pid : String} {project : Project}
    {tid : String} {task : ProjectTask} (hours : ℚ) (now : Nat)
    (hp : dictGet mgr.projects pid = some project)
    (ht : dictGet project.tasks tid = some task) :
    log_time mgr pid tid hours now =
      Except.ok (set_project mgr pid
        (log_time_body project tid task hours now)) := by
  unfold log_time
  simp only [hp, ht]

theorem log_time_ok_elim {mgr mgr' : ProjectManager} {pid tid : String}
    {hours : ℚ} {now : Nat}
    (h : log_time mgr pid tid hours now = Except.ok mgr') :
    ∃ project task, dictGet mgr.projects pid = some project ∧
      dictGet project.tasks tid = some task ∧
      mgr' = set_project mgr pid
        (log_time_body project tid task hours now) := by
  cases hp : dictGet mgr.projects pid with
  | none =>
    unfold log_time at h
    simp only [hp] at h
    exact Except.noConfusion h
  | some project =>
    cases ht : dictGet project.tasks tid with
    | none =>
      unfold log_time at h
      simp only [hp, ht] at h
      exact Except.noConfusion h
    | some task =>
      rw [log_time_found hours now hp ht] at h
      exact ⟨project, task, rfl, ht, (Except.ok.injEq _ _ ▸ h).symm⟩

/-! Lemmas about the task- and project-level mutation bodies. -/

theorem updated_task_status (task : ProjectTask) (st : TaskStatus) (now : Nat) :
    (updated_task task st now).status = st := by
  unfold updated_task
  split <;> rfl

theorem updated_task_actual (task : ProjectTask) (st : TaskStatus) (now : Nat) :
    (updated_task task st now).actual_hours = task.actual_hours := by
  unfold updated_task
  split <;> rfl

theorem updated_task_completion_stamp {task : ProjectTask} {st : TaskStatus}
    (now : Nat) (h1 : st = TaskStatus.completed)
    (h2 : task.status ≠ TaskStatus.completed) :
    (updated_task task st now).completion_date = some now := by
  unfold updated_task
  rw [if_pos ⟨h1, h2⟩]

theorem updated_task_completion_keep {task : ProjectTask} {st : TaskStatus}
    (now : Nat)
    (h : ¬(st = TaskStatus.completed ∧ task.status ≠ TaskStatus.completed)) :
    (updated_task task st now).completion_date = task.completion_date := by
  unfold updated_task
  rw [if_neg h]

theorem apply_status_update_tasks (project : Project) (tid : String)
    (task : ProjectTask) (st : TaskStatus) (now : Nat) :
    (apply_status_update project tid task st now).tasks =
      dictSet project.tasks tid (updated_task task st now) := by
  simp only [apply_status_update]
  split <;> rfl

theorem apply_status_update_spent (project : Project) (tid : String)
    (task : ProjectTask) (st : TaskStatus) (now : Nat) :
    (apply_status_update project tid task st now).spent_hours =
      project.spent_hours := by
  simp only [apply_status_update]
  split <;> rfl

theorem apply_status_update_fired {project : Project} {tid : String}
    {task : ProjectTask} {st : TaskStatus} {now : Nat}
    (h : all_tasks_completed { project with
      tasks := dictSet project.tasks tid (updated_task task st now) } = true) :
    (apply_status_update project tid task st now).status =
        ProjectStatus.completed ∧
      (apply_status_update project tid task st now).completion_date =
        some now := by
  simp only [apply_status_update]
  rw [if_pos h]
  exact ⟨rfl, rfl⟩

theorem apply_status_update_not_fired {project : Project} {tid : String}
    {task : ProjectTask} {st : TaskStatus} {now : Nat}
    (h : all_tasks_completed { project with
      tasks := dictSet project.tasks tid (updated_task task st now) } = false) :
    (apply_status_update project tid task st now).status = project.status ∧
      (apply_status_update project tid task st now).completion_date =
        project.completion_date := by
  simp only [apply_status_update]
  rw [if_neg (by simp [h])]
  exact ⟨rfl, rfl⟩

theorem all_tasks_completed_true_iff (p : Project) :
    all_tasks_completed p = true ↔
      p.tasks ≠ [] ∧
        ∀ t ∈ dictValues p.tasks, t.status = TaskStatus.completed := by
  unfold all_tasks_completed
  cases hp : p.tasks with
  | nil => simp [dictValues]
  | cons a l => simp [dictValues, List.all_eq_true]

/-! The strictly-greater argmax characterization of `fold_best`, and lemmas
relating the operations to `task_in`. -/

theorem fold_best_spec {α : Type} (g : α → ℚ) (xs : List α) (b : α) (d : ℚ) :
    (fold_best g xs (b, d) = (b, d) ∧ ∀ x ∈ xs, g x ≤ d) ∨
      (∃ pre c post, xs = pre ++ c :: post ∧ fold_best g xs (b, d) = (c, g c) ∧
        d < g c ∧ (∀ x ∈ pre, g x < g c) ∧ ∀ x ∈ xs, g x ≤ g c) := by
  induction xs generalizing b d with
  | nil => exact Or.inl ⟨rfl, by simp⟩
  | cons x rest ih =>
    have hcons : fold_best g (x :: rest) (b, d) =
        fold_best g rest (if d < g x then (x, g x) else (b, d)) := rfl
    by_cases hx : d < g x
    · rw [hcons, if_pos hx]
      rcases ih x (g x) with ⟨heq, hall⟩ | ⟨pre, c, post, hxs, heq, hlt, hpre, hall⟩
      · refine Or.inr ⟨[], x, rest, rfl, heq, hx, by simp, ?_⟩
        intro y hy
        rcases List.mem_cons.mp hy with h | h
        · subst h
          exact le_refl _
        · exact hall y h
      · refine Or.inr ⟨x :: pre, c, post, by rw [hxs, List.cons_append], heq,
          lt_trans hx hlt, ?_, ?_⟩
        · intro y hy
          rcases List.mem_cons.mp hy with h | h
          · subst h
            exact hlt
          · exact hpre y h
        · intro y hy
          rcases List.mem_cons.mp hy with h | h
          · subst h
            exact le_of_lt hlt
          · exact hall y h
    · rw [hcons, if_neg hx]
      rcases ih b d with ⟨heq, hall⟩ | ⟨pre, c, post, hxs, heq, hlt, hpre, hall⟩
      · refine Or.inl ⟨heq, ?_⟩
        intro y hy
        rcases List.mem_cons.mp hy with h | h
        · subst h
          exact le_of_not_lt hx
        · exact hall y h
      · refine Or.inr ⟨x :: pre, c, post, by rw [hxs, List.cons_append], heq,
          hlt, ?_, ?_⟩
        · intro y hy
          rcases List.mem_cons.mp hy with h | h
          · subst h
            exact lt_of_le_of_lt (le_of_not_lt hx) hlt
          · exact hpre y h
        · intro y hy
          rcases List.mem_cons.mp hy with h | h
          · subst h
            exact le_of_lt (lt_of_le_of_lt (le_of_not_lt hx) hlt)
          · exact hall y h

theorem task_in_elim {mgr : ProjectManager} {pid tid : String}
    {task : ProjectTask} (h : task_in mgr pid tid = some task) :
    ∃ project, dictGet mgr.projects pid = some project ∧
      dictGet project.tasks tid = some task := by
  unfold task_in at h
  cases hp : dictGet mgr.projects pid with
  | none => rw [hp] at h; cases h
  | some project =>
    rw [hp] at h
    exact ⟨project, rfl, h⟩

theorem task_in_found {mgr : ProjectManager} {pid : String} {project : Project}
    (tid : String) (hp : dictGet mgr.projects pid = some project) :
    task_in mgr pid tid = dictGet project.tasks tid := by
  simp [task_in, hp]

theorem task_in_set_project (mgr : ProjectManager) (pid : String) (p : Project)
    (tid : String) :
    task_in (set_project mgr pid p) pid tid = dictGet p.tasks tid := by
  simp [task_in, set_project, dictGet_dictSet_same]

theorem update_ok_task_in {mgr mgr' : ProjectManager} {pid tid : String}
    {st : TaskStatus} {now : Nat} {task : ProjectTask}
    (h : update_task_status mgr pid tid st now = Except.ok mgr')
    (ht : task_in mgr pid tid = some task) :
    task_in mgr' pid tid = some (updated_task task st now) := by
  obtain ⟨project, task2, hp2, ht2, hm⟩ := update_ok_elim h
  obtain ⟨project1, hp1, ht1⟩ := task_in_elim ht
  rw [hp1] at hp2
  cases hp2
  rw [ht1] at ht2
  cases ht2
  rw [hm, task_in_set_project, apply_status_update_tasks, dictGet_dictSet_same]

/-! Claim theorems. -/

/-- Claim C8: every operation that targets a specific project or task
(`update_task_status`, `log_time`, `get_project_metrics`,
`get_task_dependencies`, `get_available_tasks`, `get_critical_path`) fails
with a NotFound error when the referenced project id or task id does not
exist, with the existence checks performed before any mutation: in this
embedding a failing mutator returns only the error and produces no successor
state, and a successful mutator implies both referenced ids existed. -/
theorem c8_notfound_atomicity :
    (∀ (mgr : ProjectManager) (pid tid : String) (st : TaskStatus) (now : Nat),
      dictGet mgr.projects pid = none →
      update_task_status mgr pid tid st now =
        Except.error (Err.notFound ("Project " ++ pid ++ " not found"))) ∧
    (∀ (mgr : ProjectManager) (pid tid : String) (st : TaskStatus) (now : Nat)
      (project : Project), dictGet mgr.projects pid = some project →
      dictGet project.tasks tid = none →
      update_task_status mgr pid tid st now = Except.error
        (Err.notFound ("Task " ++ tid ++ " not found in project " ++ pid))) ∧
    (∀ (mgr : ProjectManager) (pid tid : String) (hours : ℚ) (now : Nat),
      dictGet mgr.projects pid = none →
      log_time mgr pid tid hours now =
        Except.error (Err.notFound ("Project " ++ pid ++ " not found"))) ∧
    (∀ (mgr : ProjectManager) (pid tid : String) (hours : ℚ) (now : Nat)
      (project : Project), dictGet mgr.projects pid = some project →
      dictGet project.tasks tid = none →
      log_time mgr pid tid hours now = Except.error
        (Err.notFound ("Task " ++ tid ++ " not found in project " ++ pid))) ∧
    (∀ (mgr : ProjectManager) (pid tid : String),
      dictGet mgr.projects pid = none →
      get_task_dependencies mgr pid tid =
        Except.error (Err.notFound ("Project " ++ pid ++ " not found"))) ∧
    (∀ (mgr : ProjectManager) (pid tid : String) (project : Project),
      dictGet mgr.projects pid = some project →
      dictGet project.tasks tid = none →
      get_task_dependencies mgr pid tid =
        Except.error (Err.notFound ("Task " ++ tid ++ " not found"))) ∧
    (∀ (mgr : ProjectManager) (pid : String) (now : Nat),
      dictGet mgr.projects pid = none →
      get_project_metrics mgr pid now =
        Except.error (Err.notFound ("Project " ++ pid ++ " not found"))) ∧
    (∀ (mgr : ProjectManager) (pid : String),
      dictGet mgr.projects pid = none →
      get_available_tasks mgr pid =
        Except.error (Err.notFound ("Project " ++ pid ++ " not found"))) ∧
    (∀ (mgr : ProjectManager) (pid : String),
      dictGet mgr.projects pid = none →
      get_critical_path mgr pid =
        Except.error (Err.notFound ("Project " ++ pid ++ " not found"))) ∧
    (∀ (mgr mgr' : ProjectManager) (pid tid : String) (st : TaskStatus)
      (now : Nat), update_task_status mgr pid tid st now = Except.ok mgr' →
      ∃ project task, dictGet mgr.projects pid = some project ∧
        dictGet project.tasks tid = some task) ∧
    (∀ (mgr mgr' : ProjectManager) (pid tid : String) (hours : ℚ) (now : Nat),
      log_time mgr pid tid hours now = Except.ok mgr' →
      ∃ project task, dictGet mgr.projects pid = some project ∧
        dictGet project.tasks tid = some task) := by
  refine ⟨?_, ?_, ?_, ?_, ?_, ?_, ?_, ?_, ?_, ?_, ?_⟩
  · intro mgr pid tid st now h
    unfold update_task_status
    simp [h]
  · intro mgr pid tid st now project hp ht
    unfold update_task_status
    simp [hp, ht]
  · intro mgr pid tid hours now h
    unfold log_time
    simp [h]
  · intro mgr pid tid hours now project hp ht
    unfold log_time
    simp [hp, ht]
  · intro mgr pid tid h
    unfold get_task_dependencies
    simp [h]
  · intro mgr pid tid project hp ht
    unfold get_task_dependencies
    simp [hp, ht]
  · intro mgr pid now h
    unfold get_project_metrics
    simp [h]
  · intro mgr pid h
    unfold get_available_tasks
    simp [h]
  · intro mgr pid h
    unfold get_critical_path
    simp [h]
  · intro mgr mgr' pid tid st now h
    obtain ⟨project, task, hp, ht, _⟩ := update_ok_elim h
    exact ⟨project, task, hp, ht⟩
  · intro mgr mgr' pid tid hours now h
    obtain ⟨project, task, hp, ht, _⟩ := log_time_ok_elim h
    exact ⟨project, task, hp, ht⟩

/-- Witness for C8: on the concrete states, an unknown project id and an
unknown task id are rejected with NotFound. -/
theorem c8_witness :
    update_task_status mgr0 "nope" "t" TaskStatus.completed 0 =
      Except.error (Err.notFound ("Project " ++ "nope" ++ " not found")) ∧
    log_time mgrPT "p" "ghost" 1 0 = Except.error
      (Err.notFound ("Task " ++ "ghost" ++ " not found in project " ++ "p")) :=
  ⟨c8_notfound_atomicity.1 mgr0 "nope" "t" TaskStatus.completed 0 (by decide),
   c8_notfound_atomicity.2.2.2.1 mgrPT "p" "ghost" 1 0 (proj_of mgrPT "p")
     (by decide) (by decide)⟩

/-- Claim C3 counterexample: on a concrete state with an existing project and
task, `log_time` with `hours = -1` does not fail with a ValidationError (the
source has no such check); it succeeds and adds the negative hours to the
task's `actual_hours` and the project's `spent_hours`. -/
theorem c3_counterexample :
    log_time mgrPT "p" "t" (-1) 7 = Except.ok mgrNeg ∧
      (task_of mgrNeg "p" "t").actual_hours = -1 ∧
      (proj_of mgrNeg "p").spent_hours = -1 := by
  refine ⟨rfl, ?_, ?_⟩ <;>
    simp [task_of, proj_of, task_in, mgrNeg, okOr, mgrPT, mgrP, mgr0,
      log_time, add_task_to_project, create_project, set_project,
      add_task_body, new_task, log_time_body, time_logged_task,
      dictGet, dictSet]

/-- Claim C3, amended: for every existing project id and task id,
`log_time(project_id, task_id, hours)` performs no validation of `hours`: for
every `hours` value, including negative ones, it succeeds and adds `hours` to
both the task's `actual_hours` and the project's `spent_hours` (no
ValidationError is ever raised; `Err` has no validation case at all). -/
theorem c3_log_time_no_validation :
    ∀ (mgr : ProjectManager) (pid tid : String) (hours : ℚ) (now : Nat)
      (project : Project) (task : ProjectTask),
      dictGet mgr.projects pid = some project →
      dictGet project.tasks tid = some task →
      ∃ mgr' p' t', log_time mgr pid tid hours now = Except.ok mgr' ∧
        dictGet mgr'.projects pid = some p' ∧
        dictGet p'.tasks tid = some t' ∧
        t'.actual_hours = task.actual_hours + hours ∧
        p'.spent_hours = project.spent_hours + hours := by
  intro mgr pid tid hours now project task hp ht
  refine ⟨set_project mgr pid (log_time_body project tid task hours now),
    log_time_body project tid task hours now, time_logged_task task hours now,
    log_time_found hours now hp ht, ?_, ?_, rfl, rfl⟩
  · simp [set_project, dictGet_dictSet_same]
  · simp [log_time_body, dictGet_dictSet_same]

/-- Witness for the amended C3 at a negative hours value. -/
theorem c3_witness :
    ∃ mgr' p' t', log_time mgrPT "p" "t" (-1) 7 = Except.ok mgr' ∧
      dictGet mgr'.projects "p" = some p' ∧
      dictGet p'.tasks "t" = some t' ∧
      t'.actual_hours = (task_of mgrPT "p" "t").actual_hours + (-1) ∧
      p'.spent_hours = (proj_of mgrPT "p").spent_hours + (-1) :=
  c3_log_time_no_validation mgrPT "p" "t" (-1) 7 (proj_of mgrPT "p")
    (task_of mgrPT "p" "t") (by decide) (by decide)

/-- Claim C9 counterexample: `create_project` accepts an empty `name` and
creates the project, and `add_task_to_project` accepts an empty `title` and
creates the task; neither fails with a ValidationError (the source validates
neither field). -/
theorem c9_counterexample :
    (proj_of mgrEN "p").name = "" ∧
      dictGet mgrEN.projects "p" = some (proj_of mgrEN "p") ∧
      add_task_to_project mgrEN "p" "t" "" "" Priority.medium 1 [] [] none [] 0
        = Except.ok mgrENT ∧
      (task_of mgrENT "p" "t").title = "" := by
  refine ⟨?_, ?_, rfl, ?_⟩ <;> decide

/-- Claim C9, amended: the entity constructors perform no validation of
required fields. `create_project` always creates a project with the given
name (empty or not), status PLANNING, no tasks and zero spent hours;
`add_task_to_project` on an existing project always creates a NOT_STARTED
task with the given title (empty or not), and fails only with NotFound on an
unknown project id. -/
theorem c9_no_field_validation :
    (∀ (mgr : ProjectManager) (pid name desc owner : String) (prio : Priority)
      (sd dd : Option Nat) (bh : ℚ) (now : Nat),
      (dictGet (create_project mgr pid name desc owner prio sd dd bh
          now).projects pid).map Project.name = some name ∧
      (dictGet (create_project mgr pid name desc owner prio sd dd bh
          now).projects pid).map Project.status = some ProjectStatus.planning ∧
      (dictGet (create_project mgr pid name desc owner prio sd dd bh
          now).projects pid).map Project.tasks = some [] ∧
      (dictGet (create_project mgr pid name desc owner prio sd dd bh
          now).projects pid).map Project.spent_hours = some 0) ∧
    (∀ (mgr : ProjectManager) (pid tid title desc : String) (prio : Priority)
      (est : ℚ) (deps ags : List String) (dd : Option Nat)
      (tags : List String) (now : Nat) (project : Project),
      dictGet mgr.projects pid = some project →
      ∃ mgr' p' t', add_task_to_project mgr pid tid title desc prio est deps
          ags dd tags now = Except.ok mgr' ∧
        dictGet mgr'.projects pid = some p' ∧ dictGet p'.tasks tid = some t' ∧
        t'.title = title ∧ t'.status = TaskStatus.notStarted ∧
        t'.actual_hours = 0) ∧
    (∀ (mgr : ProjectManager) (pid tid title desc : String) (prio : Priority)
      (est : ℚ) (deps ags : List String) (dd : Option Nat)
      (tags : List String) (now : Nat),
      dictGet mgr.projects pid = none →
      add_task_to_project mgr pid tid title desc prio est deps ags dd tags now
        = Except.error (Err.notFound ("Project " ++ pid ++ " not found"))) := by
  refine ⟨?_, ?_, ?_⟩
  · intro mgr pid name desc owner prio sd dd bh now
    unfold create_project
    simp [set_project, dictGet_dictSet_same]
  · intro mgr pid tid title desc prio est deps ags dd tags now project hp
    refine ⟨set_project mgr pid
        (add_task_body project tid title desc prio est deps ags dd tags now),
      add_task_body project tid title desc prio est deps ags dd tags now,
      new_task tid title desc prio est deps ags dd tags now,
      add_task_found tid title desc prio est deps ags dd tags now hp,
      ?_, ?_, rfl, rfl, rfl⟩
    · simp [set_project, dictGet_dictSet_same]
    · simp [add_task_body, dictGet_dictSet_same]
  · intro mgr pid tid title desc prio est deps ags dd tags now h
    unfold add_task_to_project
    simp [h]

/-- Witness for the amended C9 at empty name and title. -/
theorem c9_witness :
    ((dictGet (create_project mgr0 "p" "" "" "" Priority.medium none none
        0 0).projects "p").map Project.name = some "" ∧
      (dictGet (create_project mgr0 "p" "" "" "" Priority.medium none none
        0 0).projects "p").map Project.status = some ProjectStatus.planning ∧
      (dictGet (create_project mgr0 "p" "" "" "" Priority.medium none none
        0 0).projects "p").map Project.tasks = some [] ∧
      (dictGet (create_project mgr0 "p" "" "" "" Priority.medium none none
        0 0).projects "p").map Project.spent_hours = some 0) ∧
    (∃ mgr' p' t', add_task_to_project mgrEN "p" "t" "" "" Priority.medium 1
        [] [] none [] 0 = Except.ok mgr' ∧
      dictGet mgr'.projects "p" = some p' ∧ dictGet p'.tasks "t" = some t' ∧
      t'.title = "" ∧ t'.status = TaskStatus.notStarted ∧
      t'.actual_hours = 0) :=
  ⟨c9_no_field_validation.1 mgr0 "p" "" "" "" Priority.medium none none 0 0,
   c9_no_field_validation.2.1 mgrEN "p" "t" "" "" Priority.medium 1 [] [] none
     [] 0 (proj_of mgrEN "p") (by decide)⟩

/-- Claim C2: a successful `update_task_status` sets the target project's
status to COMPLETED with `completion_date = now` exactly when, after applying
the task-status update, the (necessarily non-empty) task set is entirely
COMPLETED; otherwise the project's status and completion date are unchanged.
A project with an empty task set is never auto-completed: the
`_all_tasks_completed` check is `false` on an empty task dict. -/
theorem c2_cascade :
    (∀ (mgr mgr' : ProjectManager) (pid tid : String) (st : TaskStatus)
      (now : Nat) (project : Project),
      dictGet mgr.projects pid = some project →
      update_task_status mgr pid tid st now = Except.ok mgr' →
      ∃ p', dictGet mgr'.projects pid = some p' ∧ dictValues p'.tasks ≠ [] ∧
        ((∀ t ∈ dictValues p'.tasks, t.status = TaskStatus.completed) →
          p'.status = ProjectStatus.completed ∧
            p'.completion_date = some now) ∧
        ((¬ ∀ t ∈ dictValues p'.tasks, t.status = TaskStatus.completed) →
          p'.status = project.status ∧
            p'.completion_date = project.completion_date)) ∧
    (∀ p : Project, p.tasks = [] → all_tasks_completed p = false) := by
  refine ⟨?_, ?_⟩
  · intro mgr mgr' pid tid st now project hp hu
    obtain ⟨project1, task, hp1, ht, hm⟩ := update_ok_elim hu
    rw [hp] at hp1
    injection hp1 with e
    subst e
    subst hm
    refine ⟨apply_status_update project tid task st now, ?_, ?_, ?_, ?_⟩
    · simp [set_project, dictGet_dictSet_same]
    · rw [apply_status_update_tasks]
      intro hnil
      simp only [dictValues, List.map_eq_nil_iff] at hnil
      exact dictSet_ne_nil project.tasks tid (updated_task task st now) hnil
    · intro hall
      rw [apply_status_update_tasks] at hall
      have hc : all_tasks_completed { project with
          tasks := dictSet project.tasks tid (updated_task task st now) } =
          true := by
        rw [all_tasks_completed_true_iff]
        exact ⟨dictSet_ne_nil project.tasks tid (updated_task task st now),
          hall⟩
      exact apply_status_update_fired hc
    · intro hnot
      rw [apply_status_update_tasks] at hnot
      cases hb : all_tasks_completed { project with
          tasks := dictSet project.tasks tid (updated_task task st now) } with
      | false => exact apply_status_update_not_fired hb
      | true =>
        exact absurd ((all_tasks_completed_true_iff _).mp hb).2 hnot
  · intro p hp
    unfold all_tasks_completed
    simp [hp]

/-- Witness for C2: completing the single task of the concrete project fires
the cascade hypotheses at `now = 5`. -/
theorem c2_witness :
    ∃ p', dictGet mgrDone.projects "p" = some p' ∧
      dictValues p'.tasks ≠ [] ∧
      ((∀ t ∈ dictValues p'.tasks, t.status = TaskStatus.completed) →
        p'.status = ProjectStatus.completed ∧ p'.completion_date = some 5) ∧
      ((¬ ∀ t ∈ dictValues p'.tasks, t.status = TaskStatus.completed) →
        p'.status = (proj_of mgrPT "p").status ∧
          p'.completion_date = (proj_of mgrPT "p").completion_date) :=
  c2_cascade.1 mgrPT mgrDone "p" "t" TaskStatus.completed 5
    (proj_of mgrPT "p") (by decide) rfl

/-- Claim C10 counterexample: the prevention of auto-completion by a
CANCELLED task is not permanent. In the concrete project with one COMPLETED
and one CANCELLED task, a single subsequent `update_task_status` on the
CANCELLED task (transitions are unrestricted) turns it COMPLETED and fires
the cascade, auto-setting the project to COMPLETED. -/
theorem c10_counterexample :
    (∃ t ∈ dictValues (proj_of mgrCanc "p").tasks,
        t.status = TaskStatus.cancelled) ∧
      update_task_status mgrCanc "p" "t2" TaskStatus.completed 9 =
        Except.ok mgrCancDone ∧
      (proj_of mgrCancDone "p").status = ProjectStatus.completed ∧
      (proj_of mgrCanc "p").status ≠ ProjectStatus.completed := by
  refine ⟨?_, rfl, ?_, ?_⟩ <;> decide

/-- Claim C10, amended: as long as some owned task still has status CANCELLED
after a task-status update, the auto-completion check fails, so that update
leaves the project's status and completion date unchanged; the prevention
lasts only while a CANCELLED task remains, since a later update may itself
re-status the CANCELLED task (transitions are unrestricted). -/
theorem c10_cancelled_blocks_cascade :
    ∀ (mgr mgr' : ProjectManager) (pid tid : String) (st : TaskStatus)
      (now : Nat) (project : Project),
      dictGet mgr.projects pid = some project →
      update_task_status mgr pid tid st now = Except.ok mgr' →
      ∀ p', dictGet mgr'.projects pid = some p' →
      (∃ t ∈ dictValues p'.tasks, t.status = TaskStatus.cancelled) →
      p'.status = project.status ∧
        p'.completion_date = project.completion_date := by
  intro mgr mgr' pid tid st now project hp hu p' hp' hcanc
  obtain ⟨project1, task, hp1, ht, hm⟩ := update_ok_elim hu
  rw [hp] at hp1
  injection hp1 with e
  subst e
  subst hm
  have h2 : dictGet (set_project mgr pid
      (apply_status_update project tid task st now)).projects pid =
      some (apply_status_update project tid task st now) := by
    simp [set_project, dictGet_dictSet_same]
  rw [h2] at hp'
  injection hp' with e2
  subst e2
  obtain ⟨c, hc, hcs⟩ := hcanc
  rw [apply_status_update_tasks] at hc
  have hfalse : all_tasks_completed { project with
      tasks := dictSet project.tasks tid (updated_task task st now) } =
      false := by
    cases hb : all_tasks_completed { project with
        tasks := dictSet project.tasks tid (updated_task task st now) } with
    | false => rfl
    | true =>
      exfalso
      have hcomp := ((all_tasks_completed_true_iff _).mp hb).2 c hc
      rw [hcomp] at hcs
      exact TaskStatus.noConfusion hcs
  exact apply_status_update_not_fired hfalse

/-- Witness for the amended C10: updating the COMPLETED task of the concrete
project leaves the CANCELLED one in place, and the project status and
completion date are unchanged. -/
theorem c10_witness :
    (proj_of mgrCancUpd "p").status = (proj_of mgrCanc "p").status ∧
      (proj_of mgrCancUpd "p").completion_date =
        (proj_of mgrCanc "p").completion_date :=
  c10_cancelled_blocks_cascade mgrCanc mgrCancUpd "p" "t1"
    TaskStatus.inProgress 4 (proj_of mgrCanc "p") (by decide) rfl
    (proj_of mgrCancUpd "p") (by decide) (by decide)

/-- Repeating `update_task_status(p, t, COMPLETED)` on a task that is already
COMPLETED succeeds and keeps its `completion_date` (the stamping condition
`old_status != COMPLETED` is false). -/
theorem update_complete_again {mgr : ProjectManager} {pid tid : String}
    {task : ProjectTask} (now : Nat)
    (hfound : task_in mgr pid tid = some task)
    (hst : task.status = TaskStatus.completed) :
    ∃ mgr', update_task_status mgr pid tid TaskStatus.completed now =
        Except.ok mgr' ∧
      ∃ task', task_in mgr' pid tid = some task' ∧
        task'.status = TaskStatus.completed ∧
        task'.completion_date = task.completion_date := by
  obtain ⟨project, hp, ht⟩ := task_in_elim hfound
  refine ⟨set_project mgr pid
      (apply_status_update project tid task TaskStatus.completed now),
    update_found TaskStatus.completed now hp ht,
    updated_task task TaskStatus.completed now, ?_, ?_, ?_⟩
  · rw [task_in_set_project, apply_status_update_tasks, dictGet_dictSet_same]
  · exact updated_task_status task TaskStatus.completed now
  · exact updated_task_completion_keep now (by simp [hst])

/-- Claim C7: after a successful `update_task_status(p, t, COMPLETED)`, any
number of further COMPLETED updates of the same task (at arbitrary later
clock values, with no intervening status change) all succeed and leave the
task's `completion_date` fixed at the value stamped by the first call. -/
theorem c7_complete_idempotent :
    ∀ (mgr mgr1 : ProjectManager) (pid tid : String) (now1 : Nat),
      update_task_status mgr pid tid TaskStatus.completed now1 =
        Except.ok mgr1 →
      ∀ nows : List Nat, ∃ t1 mgr2 t2,
        task_in mgr1 pid tid = some t1 ∧ t1.status = TaskStatus.completed ∧
        repeat_complete pid tid mgr1 nows = Except.ok mgr2 ∧
        task_in mgr2 pid tid = some t2 ∧
        t2.completion_date = t1.completion_date := by
  have aux : ∀ (nows : List Nat) (s : ProjectManager) (pid tid : String)
      (t : ProjectTask), task_in s pid tid = some t →
      t.status = TaskStatus.completed →
      ∃ s2 t2, repeat_complete pid tid s nows = Except.ok s2 ∧
        task_in s2 pid tid = some t2 ∧
        t2.completion_date = t.completion_date ∧
        t2.status = TaskStatus.completed := by
    intro nows
    induction nows with
    | nil =>
      intro s pid tid t hf hst
      exact ⟨s, t, rfl, hf, rfl, hst⟩
    | cons now rest ih =>
      intro s pid tid t hf hst
      obtain ⟨s', hs', t', hf', hst', hcd'⟩ := update_complete_again now hf hst
      obtain ⟨s2, t2, hrep, hf2, hcd2, hst2⟩ := ih s' pid tid t' hf' hst'
      refine ⟨s2, t2, ?_, hf2, ?_, hst2⟩
      · unfold repeat_complete
        rw [hs']
        exact hrep
      · rw [hcd2, hcd']
  intro mgr mgr1 pid tid now1 hu nows
  obtain ⟨project, task, hp, ht, hm⟩ := update_ok_elim hu
  have hf1 : task_in mgr1 pid tid =
      some (updated_task task TaskStatus.completed now1) := by
    rw [hm, task_in_set_project, apply_status_update_tasks,
      dictGet_dictSet_same]
  have hst1 := updated_task_status task TaskStatus.completed now1
  obtain ⟨s2, t2, hrep, hf2, hcd2, _⟩ := aux nows mgr1 pid tid _ hf1 hst1
  exact ⟨updated_task task TaskStatus.completed now1, s2, t2, hf1, hst1,
    hrep, hf2, hcd2⟩

/-- Witness for C7: two further COMPLETED updates at times 8 and 9 keep the
concrete task's completion date. -/
theorem c7_witness :
    ∃ t1 mgr2 t2, task_in mgrDone "p" "t" = some t1 ∧
      t1.status = TaskStatus.completed ∧
      repeat_complete "p" "t" mgrDone [8, 9] = Except.ok mgr2 ∧
      task_in mgr2 "p" "t" = some t2 ∧
      t2.completion_date = t1.completion_date :=
  c7_complete_idempotent mgrPT mgrDone "p" "t" 5 rfl [8, 9]

/-- The dependency filter of `get_available_tasks`, characterized: a task
passes iff it is NOT_STARTED and each dependency id is either absent from the
project's task dict or refers to a COMPLETED task. -/
theorem avail_filter_true_iff (project : Project) (task : ProjectTask) :
    avail_filter project task = true ↔
      task.status = TaskStatus.notStarted ∧
        ∀ dep_id ∈ task.dependencies,
          dictGet project.tasks dep_id = none ∨
          ∃ dep, dictGet project.tasks dep_id = some dep ∧
            dep.status = TaskStatus.completed := by
  unfold avail_filter
  rw [Bool.and_eq_true, decide_eq_true_iff, List.all_eq_true]
  constructor
  · rintro ⟨h1, h2⟩
    refine ⟨h1, ?_⟩
    intro dep_id hd
    cases hg : dictGet project.tasks dep_id with
    | none => exact Or.inl rfl
    | some dep =>
      refine Or.inr ⟨dep, rfl, ?_⟩
      have hmem : dep_id ∈ task.dependencies.filter
          (fun d => (dictGet project.tasks d).isSome) := by
        rw [List.mem_filter]
        exact ⟨hd, by rw [hg]; rfl⟩
      have hthis : (match dictGet project.tasks dep_id with
          | some dep => decide (dep.status = TaskStatus.completed)
          | none => false) = true := h2 dep_id hmem
      simp only [hg] at hthis
      exact of_decide_eq_true hthis
  · rintro ⟨h1, h2⟩
    refine ⟨h1, ?_⟩
    intro dep_id hmem
    rw [List.mem_filter] at hmem
    obtain ⟨hd, hsome⟩ := hmem
    rcases h2 dep_id hd with hn | ⟨dep, hg, hs⟩
    · rw [hn] at hsome
      simp at hsome
    · simp only [hg]
      exact decide_eq_true hs

/-- Claim C5: for every existing project, `get_available_tasks` returns
exactly the NOT_STARTED tasks whose every dependency id is absent from the
project's task dict or refers to a COMPLETED task; in particular, on the
concrete project, the task whose dependency set holds one COMPLETED task and
one never-created id is returned (the dangling id counts as satisfied). -/
theorem c5_available_tasks :
    (∀ (mgr : ProjectManager) (pid : String) (project : Project),
      dictGet mgr.projects pid = some project →
      ∃ l, get_available_tasks mgr pid = Except.ok l ∧
        ∀ t, t ∈ l ↔ t ∈ dictValues project.tasks ∧
          t.status = TaskStatus.notStarted ∧
          ∀ dep_id ∈ t.dependencies,
            dictGet project.tasks dep_id = none ∨
            ∃ dep, dictGet project.tasks dep_id = some dep ∧
              dep.status = TaskStatus.completed) ∧
    get_available_tasks mgrDang "p" = Except.ok [taskW] := by
  refine ⟨?_, rfl⟩
  intro mgr pid project hp
  refine ⟨(dictValues project.tasks).filter (avail_filter project), ?_, ?_⟩
  · unfold get_available_tasks
    simp only [hp]
  · intro t
    rw [List.mem_filter]
    constructor
    · rintro ⟨hmem, hf⟩
      have ha := (avail_filter_true_iff project t).mp hf
      exact ⟨hmem, ha.1, ha.2⟩
    · rintro ⟨hmem, h1, h2⟩
      exact ⟨hmem, (avail_filter_true_iff project t).mpr ⟨h1, h2⟩⟩

/-- Witness for C5 on the concrete project with the dangling dependency. -/
theorem c5_witness :
    ∃ l, get_available_tasks mgrDang "p" = Except.ok l ∧
      ∀ t, t ∈ l ↔ t ∈ dictValues (proj_of mgrDang "p").tasks ∧
        t.status = TaskStatus.notStarted ∧
        ∀ dep_id ∈ t.dependencies,
          dictGet (proj_of mgrDang "p").tasks dep_id = none ∨
          ∃ dep, dictGet (proj_of mgrDang "p").tasks dep_id = some dep ∧
            dep.status = TaskStatus.completed :=
  c5_available_tasks.1 mgrDang "p" (proj_of mgrDang "p") (by decide)

/-- One unfolding step of `_get_task_chain` at positive fuel, with the inner
longest-dependent-chain fold expressed through `fold_best` over the chains of
the dependents. -/
theorem get_task_chain_succ (tasks : List (String × ProjectTask)) (fuel : Nat)
    (task_id : String) (visited : List String) :
    get_task_chain tasks (fuel + 1) task_id visited =
      if visited.contains task_id then []
      else
        match dictGet tasks task_id with
        | none => []
        | some task =>
          task :: (fold_best chain_hours
            (((dictValues tasks).filter fun t =>
                t.dependencies.contains task_id).map fun dep_task =>
              get_task_chain tasks fuel dep_task.id (task_id :: visited))
            ([], 0)).1 := by
  rw [get_task_chain.eq_2]
  split
  · rfl
  · split
    · rfl
    · unfold fold_best
      rw [List.foldl_map]

/-- `get_critical_path` on an existing project: the empty sequence when no
task is dependency-free, otherwise the strictly-improving fold over the
start-task chains. -/
theorem get_critical_path_char {mgr : ProjectManager} {pid : String}
    {project : Project} (hp : dictGet mgr.projects pid = some project) :
    get_critical_path mgr pid =
      if ((dictValues project.tasks).filter fun t =>
          t.dependencies.isEmpty).isEmpty then Except.ok []
      else
        Except.ok (fold_best chain_hours (start_chains project) ([], 0)).1 := by
  unfold get_critical_path fold_best start_chains
  simp only [hp]
  rw [List.foldl_map]

/-- Claim C6 counterexample: in the concrete project whose only task `Z` is
dependency-free with `estimated_hours = 0`, a start task exists and its chain
is the nonempty `[Z]` — so the chain of greatest total estimated hours is
`[Z]` — yet `get_critical_path` returns the empty sequence, because a chain
of total 0 never strictly beats the initial empty accumulator. This
contradicts both "returns the single chain with the greatest total
estimated_hours" and "returns the empty sequence (only) when no
dependency-free task exists". -/
theorem c6_counterexample :
    start_chains projZ = [[taskZ]] ∧ chain_hours [taskZ] = 0 ∧
      get_critical_path mgrZ "p" = Except.ok [] := by
  refine ⟨rfl, ?_, ?_⟩
  · simp [chain_hours, taskZ, mk_demo_task]
  · rw [get_critical_path_char
      (show dictGet mgrZ.projects "p" = some projZ from rfl)]
    rw [if_neg (by decide)]
    rw [show start_chains projZ = [[taskZ]] from rfl]
    have hch : chain_hours [taskZ] = 0 := by
      simp [chain_hours, taskZ, mk_demo_task]
    unfold fold_best
    simp [hch]

/-- Claim C6, amended: for every existing project, `get_critical_path`
returns, among the forward-dependent chains built from each dependency-free
start task (in task-insertion order, with sub-chain selection and top-level
selection both requiring a strictly greater total than the running maximum,
which starts at the empty chain with total 0, and cycles truncated by the
per-path visited set), a chain of maximal total estimated hours — the first
one when several share the maximum — provided that maximum is strictly
positive; it returns the empty sequence when no dependency-free start task
exists or when every start chain's total estimated hours is at most 0. On the
concrete example A(2h, no deps), B(3h, dep A), C(5h, dep A) it returns
[A, C]. -/
theorem c6_critical_path :
    (∀ (mgr : ProjectManager) (pid : String) (project : Project),
      dictGet mgr.projects pid = some project →
      ∃ l, get_critical_path mgr pid = Except.ok l ∧
        ((l = [] ∧ ∀ c ∈ start_chains project, chain_hours c ≤ 0) ∨
          (∃ pre post, start_chains project = pre ++ l :: post ∧
            0 < chain_hours l ∧
            (∀ c ∈ pre, chain_hours c < chain_hours l) ∧
            ∀ c ∈ start_chains project, chain_hours c ≤ chain_hours l))) ∧
    get_critical_path mgrABC "p" = Except.ok [taskA, taskC] := by
  constructor
  · intro mgr pid project hp
    rw [get_critical_path_char hp]
    by_cases hse : ((dictValues project.tasks).filter fun t =>
        t.dependencies.isEmpty).isEmpty
    · rw [if_pos hse]
      refine ⟨[], rfl, Or.inl ⟨rfl, ?_⟩⟩
      intro c hc
      unfold start_chains at hc
      rw [List.isEmpty_iff] at hse
      rw [hse] at hc
      simp at hc
    · rw [if_neg hse]
      refine ⟨_, rfl, ?_⟩
      rcases fold_best_spec chain_hours (start_chains project) [] 0 with
        ⟨heq, hall⟩ | ⟨pre, c, post, hxs, heq, hlt, hpre, hall⟩
      · rw [heq]
        exact Or.inl ⟨rfl, hall⟩
      · rw [heq]
        exact Or.inr ⟨pre, post, hxs, hlt, hpre, hall⟩
  · rw [get_critical_path_char
      (show dictGet mgrABC.projects "p" = some projABC from rfl)]
    rw [if_neg (by decide)]
    have hd : dictGet projABC.tasks "A" = some taskA := rfl
    have hA : get_task_chain projABC.tasks 4 "A" [] = [taskA, taskC] := by
      rw [show (4 : Nat) = 3 + 1 from rfl, get_task_chain_succ,
        if_neg (by decide)]
      simp only [hd]
      rw [show ((dictValues projABC.tasks).filter fun t =>
          t.dependencies.contains "A").map (fun dep_task =>
            get_task_chain projABC.tasks 3 dep_task.id ("A" :: [])) =
          [[taskB], [taskC]] from rfl]
      have hchB : chain_hours [taskB] = 3 := by
        simp [chain_hours, taskB, mk_demo_task]
      have hchC : chain_hours [taskC] = 5 := by
        simp [chain_hours, taskC, mk_demo_task]
      have hfold : fold_best chain_hours [[taskB], [taskC]] ([], 0) =
          ([taskC], 5) := by
        unfold fold_best
        simp only [List.foldl_cons, List.foldl_nil, hchB, hchC]
        norm_num
      rw [hfold]
    rw [show start_chains projABC =
      [get_task_chain projABC.tasks 4 "A" []] from rfl]
    rw [hA]
    have hchAC : chain_hours [taskA, taskC] = 7 := by
      simp [chain_hours, taskA, taskC, mk_demo_task]
      norm_num
    have hfold2 : fold_best chain_hours [[taskA, taskC]] ([], 0) =
        ([taskA, taskC], 7) := by
      unfold fold_best
      simp only [List.foldl_cons, List.foldl_nil, hchAC]
      norm_num
    rw [hfold2]

/-- Witness for C6 on the concrete A/B/C project. -/
theorem c6_witness :
    ∃ l, get_critical_path mgrABC "p" = Except.ok l ∧
      ((l = [] ∧ ∀ c ∈ start_chains projABC, chain_hours c ≤ 0) ∨
        (∃ pre post, start_chains projABC = pre ++ l :: post ∧
          0 < chain_hours l ∧
          (∀ c ∈ pre, chain_hours c < chain_hours l) ∧
          ∀ c ∈ start_chains projABC, chain_hours c ≤ chain_hours l)) :=
  c6_critical_path.1 mgrABC "p" projABC (by decide)

/-- Claim C1: in every state reachable through the public operations, every
project's `spent_hours` equals the sum of `actual_hours` over its owned
tasks; `create_project`, `add_task_to_project` and `update_task_status`
never change any project's `spent_hours`, and a successful `log_time` call
adds the same `hours` value to both the target task's `actual_hours` and the
target project's `spent_hours`, leaving every other project's `spent_hours`
unchanged. -/
theorem c1_spent_hours :
    (∀ mgr, Reachable mgr → ∀ pid p, dictGet mgr.projects pid = some p →
      p.spent_hours = sum_actual p.tasks) ∧
    (∀ (mgr : ProjectManager) (pid name desc owner : String)
      (prio : Priority) (sd dd : Option Nat) (bh : ℚ) (now : Nat)
      (q : String), q ≠ pid →
      (dictGet (create_project mgr pid name desc owner prio sd dd bh
        now).projects q).map Project.spent_hours =
        (dictGet mgr.projects q).map Project.spent_hours) ∧
    (∀ (mgr mgr' : ProjectManager) (pid tid title desc : String)
      (prio : Priority) (est : ℚ) (deps ags : List String) (dd : Option Nat)
      (tags : List String) (now : Nat),
      add_task_to_project mgr pid tid title desc prio est deps ags dd tags
        now = Except.ok mgr' →
      ∀ q, (dictGet mgr'.projects q).map Project.spent_hours =
        (dictGet mgr.projects q).map Project.spent_hours) ∧
    (∀ (mgr mgr' : ProjectManager) (pid tid : String) (st : TaskStatus)
      (now : Nat), update_task_status mgr pid tid st now = Except.ok mgr' →
      ∀ q, (dictGet mgr'.projects q).map Project.spent_hours =
        (dictGet mgr.projects q).map Project.spent_hours) ∧
    (∀ (mgr mgr' : ProjectManager) (pid tid : String) (hours : ℚ)
      (now : Nat), log_time mgr pid tid hours now = Except.ok mgr' →
      (dictGet mgr'.projects pid).map Project.spent_hours =
        (dictGet mgr.projects pid).map (fun p => p.spent_hours + hours) ∧
      (task_in mgr' pid tid).map ProjectTask.actual_hours =
        (task_in mgr pid tid).map (fun t => t.actual_hours + hours) ∧
      ∀ q, q ≠ pid →
        (dictGet mgr'.projects q).map Project.spent_hours =
          (dictGet mgr.projects q).map Project.spent_hours) := by
  refine ⟨?_, ?_, ?_, ?_, ?_⟩
  · intro mgr h
    induction h with
    | init =>
      intro pid p hp
      simp [dictGet] at hp
    | create project_id name description owner priority start_date
        due_date budget_hours now hre hfresh ih =>
      intro pid p hp
      simp only [create_project, set_project] at hp
      by_cases hq : pid = project_id
      · subst hq
        rw [dictGet_dictSet_same] at hp
        injection hp with e
        subst e
        rfl
      · rw [dictGet_dictSet_ne _ _ hq] at hp
        exact ih pid p hp
    | addTask project_id task_id title description priority estimated_hours
        dependencies assigned_agents due_date tags now hre hfresh heq ih =>
      intro pid p hp
      obtain ⟨project, hpj, hm⟩ := add_task_ok_elim heq
      subst hm
      simp only [set_project] at hp
      by_cases hq : pid = project_id
      · subst hq
        rw [dictGet_dictSet_same] at hp
        injection hp with e
        subst e
        have hfresh' : dictGet project.tasks task_id = none :=
          hfresh (pid, project) (dictGet_mem hpj)
        have hi := ih pid project hpj
        unfold sum_actual at hi ⊢
        show project.spent_hours = ((dictValues (dictSet project.tasks task_id
          (new_task task_id title description priority estimated_hours
            dependencies assigned_agents due_date tags now))).map
          ProjectTask.actual_hours).sum
        rw [sum_map_dictSet_none ProjectTask.actual_hours _ hfresh']
        rw [show (new_task task_id title description priority estimated_hours
          dependencies assigned_agents due_date tags now).actual_hours =
          (0 : ℚ) from rfl]
        rw [add_zero]
        exact hi
      · rw [dictGet_dictSet_ne _ _ hq] at hp
        exact ih pid p hp
    | updateStatus project_id task_id status now hre heq ih =>
      intro pid p hp
      obtain ⟨project, task, hpj, htk, hm⟩ := update_ok_elim heq
      subst hm
      simp only [set_project] at hp
      by_cases hq : pid = project_id
      · subst hq
        rw [dictGet_dictSet_same] at hp
        injection hp with e
        subst e
        have hi := ih pid project hpj
        unfold sum_actual at hi ⊢
        rw [apply_status_update_spent, apply_status_update_tasks]
        rw [sum_map_dictSet_some ProjectTask.actual_hours _ htk]
        rw [updated_task_actual]
        rw [hi]
        ring
      · rw [dictGet_dictSet_ne _ _ hq] at hp
        exact ih pid p hp
    | logTime project_id task_id hours now hre heq ih =>
      intro pid p hp
      obtain ⟨project, task, hpj, htk, hm⟩ := log_time_ok_elim heq
      subst hm
      simp only [set_project] at hp
      by_cases hq : pid = project_id
      · subst hq
        rw [dictGet_dictSet_same] at hp
        injection hp with e
        subst e
        have hi := ih pid project hpj
        unfold sum_actual at hi ⊢
        show project.spent_hours + hours =
          ((dictValues (dictSet project.tasks task_id
            (time_logged_task task hours now))).map
            ProjectTask.actual_hours).sum
        rw [sum_map_dictSet_some ProjectTask.actual_hours _ htk]
        rw [show (time_logged_task task hours now).actual_hours =
          task.actual_hours + hours from rfl]
        rw [hi]
        ring
      · rw [dictGet_dictSet_ne _ _ hq] at hp
        exact ih pid p hp
  · intro mgr pid name desc owner prio sd dd bh now q hq
    simp only [create_project, set_project]
    rw [dictGet_dictSet_ne _ _ hq]
  · intro mgr mgr' pid tid title desc prio est deps ags dd tags now heq q
    obtain ⟨project, hpj, hm⟩ := add_task_ok_elim heq
    subst hm
    simp only [set_project]
    by_cases hq : q = pid
    · subst hq
      rw [dictGet_dictSet_same, hpj]
      rfl
    · rw [dictGet_dictSet_ne _ _ hq]
  · intro mgr mgr' pid tid st now heq q
    obtain ⟨project, task, hpj, htk, hm⟩ := update_ok_elim heq
    subst hm
    simp only [set_project]
    by_cases hq : q = pid
    · subst hq
      rw [dictGet_dictSet_same, hpj]
      simp [apply_status_update_spent]
    · rw [dictGet_dictSet_ne _ _ hq]
  · intro mgr mgr' pid tid hours now heq
    obtain ⟨project, task, hpj, htk, hm⟩ := log_time_ok_elim heq
    subst hm
    refine ⟨?_, ?_, ?_⟩
    · simp only [set_project]
      rw [dictGet_dictSet_same, hpj]
      rfl
    · rw [task_in_set_project]
      rw [show (log_time_body project tid task hours now).tasks =
        dictSet project.tasks tid (time_logged_task task hours now) from rfl]
      rw [dictGet_dictSet_same]
      rw [task_in_found tid hpj, htk]
      rfl
    · intro q hq
      simp only [set_project]
      rw [dictGet_dictSet_ne _ _ hq]

/-- Witness for C1: the invariant evaluated on the concrete reachable state
after creating a project, adding a task, and logging two hours. -/
theorem c1_witness :
    (proj_of mgrLog "p").spent_hours = sum_actual (proj_of mgrLog "p").tasks :=
  c1_spent_hours.1 mgrLog
    (Reachable.logTime "p" "t" 2 3
      (Reachable.addTask "p" "t" "task one" "demo task" Priority.medium 1 []
        [] none [] 1
        (Reachable.create "p" "proj" "demo project" "owner" Priority.medium
          none none 0 0 Reachable.init rfl)
        (by decide) rfl)
      rfl)
    "p" (proj_of mgrLog "p") rfl

/-- Claim C4 counterexample: the state reached by creating a project, adding
a task, completing the task at time 5 and then downgrading it to IN_PROGRESS
at time 6 is reachable through the public operations, and there the task's
`completion_date` is still `some 5` although its status is not COMPLETED —
refuting "completion_date is set if and only if status equals COMPLETED". -/
theorem c4_counterexample :
    Reachable mgrDown ∧
      (task_of mgrDown "p" "t").status = TaskStatus.inProgress ∧
      (task_of mgrDown "p" "t").completion_date = some 5 := by
  refine ⟨?_, rfl, rfl⟩
  exact Reachable.updateStatus "p" "t" TaskStatus.inProgress 6
    (Reachable.updateStatus "p" "t" TaskStatus.completed 5
      (Reachable.addTask "p" "t" "task one" "demo task" Priority.medium 1
        [] [] none [] 1
        (Reachable.create "p" "proj" "demo project" "owner" Priority.medium
          none none 0 0 Reachable.init rfl)
        (by decide) rfl)
      rfl)
    rfl

/-- Claim C4, amended: `completion_date` is stamped with the current time
exactly when `update_task_status` moves a task into COMPLETED from a
different status, and nothing else ever changes it: tasks are created with a
null completion date, an update that is not such a transition (including a
repeated COMPLETED update, and including a downgrade away from COMPLETED)
keeps the previous value, and `log_time` never touches it. Consequently, in
every reachable state a COMPLETED task has a non-null completion date whose
value is the time of its most recent transition into COMPLETED — but the
converse direction of the original claim fails, since a downgraded task
keeps its stale completion date. -/
theorem c4_completion_date :
    (∀ mgr, Reachable mgr → ∀ pid p, dictGet mgr.projects pid = some p →
      ∀ t ∈ dictValues p.tasks, t.status = TaskStatus.completed →
        t.completion_date ≠ none) ∧
    (∀ (mgr mgr' : ProjectManager) (pid tid : String) (now : Nat)
      (task : ProjectTask),
      task_in mgr pid tid = some task →
      task.status ≠ TaskStatus.completed →
      update_task_status mgr pid tid TaskStatus.completed now =
        Except.ok mgr' →
      ∃ t', task_in mgr' pid tid = some t' ∧
        t'.status = TaskStatus.completed ∧ t'.completion_date = some now) ∧
    (∀ (mgr mgr' : ProjectManager) (pid tid : String) (st : TaskStatus)
      (now : Nat) (task : ProjectTask),
      task_in mgr pid tid = some task →
      ¬(st = TaskStatus.completed ∧ task.status ≠ TaskStatus.completed) →
      update_task_status mgr pid tid st now = Except.ok mgr' →
      ∃ t', task_in mgr' pid tid = some t' ∧
        t'.completion_date = task.completion_date) ∧
    (∀ (mgr mgr' : ProjectManager) (pid tid : String) (hours : ℚ)
      (now : Nat) (task : ProjectTask),
      task_in mgr pid tid = some task →
      log_time mgr pid tid hours now = Except.ok mgr' →
      ∃ t', task_in mgr' pid tid = some t' ∧
        t'.completion_date = task.completion_date ∧
        t'.status = task.status) ∧
    (∀ (tid title desc : String) (prio : Priority) (est : ℚ)
      (deps ags : List String) (dd : Option Nat) (tags : List String)
      (now : Nat),
      (new_task tid title desc prio est deps ags dd tags now).completion_date
          = none ∧
        (new_task tid title desc prio est deps ags dd tags now).status =
          TaskStatus.notStarted) := by
  refine ⟨?_, ?_, ?_, ?_, ?_⟩
  · intro mgr h
    induction h with
    | init =>
      intro pid p hp
      simp [dictGet] at hp
    | create project_id name description owner priority start_date due_date
        budget_hours now hre hfresh ih =>
      intro pid p hp
      simp only [create_project, set_project] at hp
      by_cases hq : pid = project_id
      · subst hq
        rw [dictGet_dictSet_same] at hp
        injection hp with e
        subst e
        intro t hmem
        simp [dictValues] at hmem
      · rw [dictGet_dictSet_ne _ _ hq] at hp
        exact ih pid p hp
    | addTask project_id task_id title description priority estimated_hours
        dependencies assigned_agents due_date tags now hre hfresh heq ih =>
      intro pid p hp
      obtain ⟨project, hpj, hm⟩ := add_task_ok_elim heq
      subst hm
      simp only [set_project] at hp
      by_cases hq : pid = project_id
      · subst hq
        rw [dictGet_dictSet_same] at hp
        injection hp with e
        subst e
        intro t hmem ht
        rw [show (add_task_body project task_id title description priority
          estimated_hours dependencies assigned_agents due_date tags
          now).tasks = dictSet project.tasks task_id (new_task task_id title
          description priority estimated_hours dependencies assigned_agents
          due_date tags now) from rfl] at hmem
        rcases dictValues_dictSet_cases _ _ _ t hmem with he | hold
        · subst he
          simp [new_task] at ht
        · exact ih pid project hpj t hold ht
      · rw [dictGet_dictSet_ne _ _ hq] at hp
        exact ih pid p hp
    | updateStatus project_id task_id status now hre heq ih =>
      intro pid p hp
      obtain ⟨project, task, hpj, htk, hm⟩ := update_ok_elim heq
      subst hm
      simp only [set_project] at hp
      by_cases hq : pid = project_id
      · subst hq
        rw [dictGet_dictSet_same] at hp
        injection hp with e
        subst e
        intro t hmem ht
        rw [apply_status_update_tasks] at hmem
        rcases dictValues_dictSet_cases _ _ _ t hmem with he | hold
        · subst he
          rw [updated_task_status] at ht
          by_cases hc : status = TaskStatus.completed ∧
              task.status ≠ TaskStatus.completed
          · rw [updated_task_completion_stamp now hc.1 hc.2]
            simp
          · rw [updated_task_completion_keep now hc]
            have hts : task.status = TaskStatus.completed := by
              rcases not_and_or.mp hc with h1 | h2
              · exact absurd ht h1
              · exact not_not.mp h2
            exact ih pid project hpj task (mem_dictValues htk) hts
        · exact ih pid project hpj t hold ht
      · rw [dictGet_dictSet_ne _ _ hq] at hp
        exact ih pid p hp
    | logTime project_id task_id hours now hre heq ih =>
      intro pid p hp
      obtain ⟨project, task, hpj, htk, hm⟩ := log_time_ok_elim heq
      subst hm
      simp only [set_project] at hp
      by_cases hq : pid = project_id
      · subst hq
        rw [dictGet_dictSet_same] at hp
        injection hp with e
        subst e
        intro t hmem ht
        rw [show (log_time_body project task_id task hours now).tasks =
          dictSet project.tasks task_id (time_logged_task task hours now)
          from rfl] at hmem
        rcases dictValues_dictSet_cases _ _ _ t hmem with he | hold
        · subst he
          rw [show (time_logged_task task hours now).status = task.status
            from rfl] at ht
          rw [show (time_logged_task task hours now).completion_date =
            task.completion_date from rfl]
          exact ih pid project hpj task (mem_dictValues htk) ht
        · exact ih pid project hpj t hold ht
      · rw [dictGet_dictSet_ne _ _ hq] at hp
        exact ih pid p hp
  · intro mgr mgr' pid tid now task hfound hne heq
    refine ⟨updated_task task TaskStatus.completed now,
      update_ok_task_in heq hfound, updated_task_status task
        TaskStatus.completed now, ?_⟩
    exact updated_task_completion_stamp now rfl hne
  · intro mgr mgr' pid tid st now task hfound hc heq
    exact ⟨updated_task task st now, update_ok_task_in heq hfound,
      updated_task_completion_keep now hc⟩
  · intro mgr mgr' pid tid hours now task hfound heq
    obtain ⟨project1, hp1, ht1⟩ := task_in_elim hfound
    obtain ⟨project, task2, hpj, htk, hm⟩ := log_time_ok_elim heq
    rw [hp1] at hpj
    injection hpj with e
    subst e
    rw [ht1] at htk
    injection htk with e2
    subst e2
    refine ⟨time_logged_task task hours now, ?_, rfl, rfl⟩
    rw [hm, task_in_set_project]
    rw [show (log_time_body project1 tid task hours now).tasks =
      dictSet project1.tasks tid (time_logged_task task hours now) from rfl]
    rw [dictGet_dictSet_same]
  · intro tid title desc prio est deps ags dd tags now
    exact ⟨rfl, rfl⟩

/-- Witness for the amended C4: completing the concrete NOT_STARTED task at
time 5 stamps its completion date to 5. -/
theorem c4_witness :
    ∃ t', task_in mgrDone "p" "t" = some t' ∧
      t'.status = TaskStatus.completed ∧ t'.completion_date = some 5 :=
  c4_completion_date.2.1 mgrPT mgrDone "p" "t" 5 (task_of mgrPT "p" "t")
    rfl (by decide) rfl
